import Mathlib

/-!
# Lunchbox futures

A shallow embedding of `lunchbox/future.h` and `lunchbox/request.h`:
the request core `Request< T >::Impl`, the handle `Future< T >` and the
owning wrapper `Request< T >`.

* `uint32_t` request identifiers and timeouts are natural numbers; the code
  performs no arithmetic on them, so no wrap-around is involved.
* The external `RequestHandler` is a record of two operations acting on an
  abstract handler state `H`.  Both operations may change that state, so a
  handler can answer differently from one call to the next.
* Every operation returns a `Result`: how the call ended, the core after the
  call, the handler state after the call and the handler calls it made.
-/

namespace lunchbox

/-! ## The external request handler -/

/-- A call received by the `RequestHandler`. -/
inductive HandlerCall where
  | waitRequest (request : Nat) (timeout : Nat)
  | isRequestReady (request : Nat)
  deriving DecidableEq

/-- What `RequestHandler::waitRequest( request, result, timeout )` leaves
behind: the returned flag, the content of the by-reference `result` argument
after the call, and the handler state after the call. -/
structure WaitReply (H T : Type) where
  ok : Bool
  result : T
  handler : H
  deriving DecidableEq

/-- The interface of `RequestHandler` used by `Request< T >::Impl`
(`lunchbox/requestHandler.h` is taken as a parameter).
`waitRequest h request result timeout` receives the current content of the
by-reference argument `result`; `isRequestReady h request` returns the
answer and the handler state after the poll. -/
structure RequestHandler (H T : Type) where
  waitRequest : H → Nat → T → Nat → WaitReply H T
  isRequestReady : H → Nat → Bool × H

/-- Modelled from the spec: the constant `LB_TIMEOUT_INDEFINITE` is declared
in `lunchbox/types.h`, outside the two headers embedded here.  The spec
calls it "a sentinel timeout value meaning block until completion, no time
bound"; the largest `uint32_t` is taken as that sentinel. -/
def LB_TIMEOUT_INDEFINITE : Nat := 0xffffffff

/-! ## The request core `Request< T >::Impl` -/

/-- The data members of `Request< T >::Impl` (the handler reference is passed
to the operations instead of being stored). -/
structure Impl (T : Type) where
  request : Nat
  _result : T
  _done : Bool
  _relinquished : Bool
  deriving DecidableEq

/-- How a call ends: it returns a value, it throws `FutureTimeout`, or it
ends the program (the fatal programming-error branch, or an exception that
cannot leave the function and so reaches `std::terminate`). -/
inductive Outcome (α : Type) where
  | returned (v : α)
  | futureTimeout
  | fatal
  deriving DecidableEq

/-- Replace the returned value of an outcome. -/
def Outcome.map {α β : Type} (f : α → β) : Outcome α → Outcome β
  | Outcome.returned v => Outcome.returned (f v)
  | Outcome.futureTimeout => Outcome.futureTimeout
  | Outcome.fatal => Outcome.fatal

/-- The ending of a call made inside a function that is `noexcept`: a value
still comes back, while a `FutureTimeout` cannot leave the function and
`std::terminate` ends the program. -/
def Outcome.noexcept {α : Type} : Outcome α → Outcome α
  | Outcome.returned v => Outcome.returned v
  | Outcome.futureTimeout => Outcome.fatal
  | Outcome.fatal => Outcome.fatal

/-- The complete effect of one operation. -/
structure Result (H T α : Type) where
  outcome : Outcome α
  impl : Impl T
  handler : H
  calls : List HandlerCall
  deriving DecidableEq

/-- Modelled from the spec: the statement `LBUNREACHABLE` expands a
definition of `lunchbox/debug.h`, outside the two headers embedded here.
The spec describes reaching it as "a programming-error condition (fatal)",
to be kept "as a hard abort rather than a recoverable error": the call ends
there, nothing after it is executed, the core and the handler are left as
they were. -/
def LBUNREACHABLE {H T α : Type} (h : H) (s : Impl T) : Result H T α :=
  ⟨Outcome.fatal, s, h, []⟩

/-- The constructor `Impl( handler, req )`: `_result( 0 )`, `_done( false )`,
`_relinquished( false )`. -/
def Impl.new {T : Type} [Zero T] (req : Nat) : Impl T :=
  ⟨req, 0, false, false⟩

/-- The member `Impl::relinquish()`: `_relinquished = true`. -/
def Impl.relinquish {H T : Type} (h : H) (s : Impl T) : Result H T Unit :=
  ⟨Outcome.returned (), { s with _relinquished := true }, h, []⟩

/-- The member `Impl::isRelinquished()`. -/
def Impl.isRelinquished {T : Type} (s : Impl T) : Bool :=
  s._relinquished

/-- The member `Request< T >::Impl::wait( timeout )`. -/
def Impl.wait {H T : Type} (hd : RequestHandler H T) (h : H) (s : Impl T)
    (timeout : Nat) : Result H T T :=
  if !s._done then
    if s._relinquished then
      LBUNREACHABLE h s
    else
      let r := hd.waitRequest h s.request s._result timeout
      if !r.ok then
        ⟨Outcome.futureTimeout, { s with _result := r.result }, r.handler,
          [HandlerCall.waitRequest s.request timeout]⟩
      else
        ⟨Outcome.returned r.result, { s with _result := r.result, _done := true },
          r.handler, [HandlerCall.waitRequest s.request timeout]⟩
  else
    ⟨Outcome.returned s._result, s, h, []⟩

/-- The specialisation `Request< void >::Impl::wait( timeout )`: the same
body without the final `return _result`. -/
def Impl.waitVoid {H T : Type} (hd : RequestHandler H T) (h : H) (s : Impl T)
    (timeout : Nat) : Result H T Unit :=
  if !s._done then
    if s._relinquished then
      LBUNREACHABLE h s
    else
      let r := hd.waitRequest h s.request s._result timeout
      if !r.ok then
        ⟨Outcome.futureTimeout, { s with _result := r.result }, r.handler,
          [HandlerCall.waitRequest s.request timeout]⟩
      else
        ⟨Outcome.returned (), { s with _result := r.result, _done := true },
          r.handler, [HandlerCall.waitRequest s.request timeout]⟩
  else
    ⟨Outcome.returned (), s, h, []⟩

/-- The member `Request< T >::Impl::isReady()`:
`_done || ( !_relinquished && _handler.isRequestReady( request ))`, with the
short-circuit evaluation of both operators. -/
def Impl.isReady {H T : Type} (hd : RequestHandler H T) (h : H) (s : Impl T) :
    Result H T Bool :=
  if s._done then
    ⟨Outcome.returned true, s, h, []⟩
  else if !s._relinquished then
    let r := hd.isRequestReady h s.request
    ⟨Outcome.returned r.1, s, r.2, [HandlerCall.isRequestReady s.request]⟩
  else
    ⟨Outcome.returned false, s, h, []⟩

/-! ## The handle `Future< T >` and the wrapper `Request< T >`

A `Request< T >` is a `Future< T >` whose `impl_` refers to its own core, so
the state of the handle is the state of that core. -/

/-- The member `Future< T >::wait( timeout )`: `impl_->wait( timeout )`. -/
def Future.wait {H T : Type} (hd : RequestHandler H T) (h : H) (s : Impl T)
    (timeout : Nat) : Result H T T :=
  Impl.wait hd h s timeout

/-- The member `Future< T >::isReady()`: `impl_->isReady()`. -/
def Future.isReady {H T : Type} (hd : RequestHandler H T) (h : H) (s : Impl T) :
    Result H T Bool :=
  Impl.isReady hd h s

/-- The member `Request< T >::getID()`. -/
def Request.getID {T : Type} (s : Impl T) : Nat :=
  s.request

/-- The member `Request< T >::relinquish()`. -/
def Request.relinquish {H T : Type} (h : H) (s : Impl T) : Result H T Unit :=
  Impl.relinquish h s

/-- The destructor of `Request< T >`:
`if( !isRelinquished( )) this->wait();`, where `wait()` takes the default
argument `LB_TIMEOUT_INDEFINITE`.  The value returned by `wait` is dropped.
The destructor carries no exception specification and the header is C++11
(`final` on `Impl::wait`), so it is implicitly `noexcept`: a `FutureTimeout`
thrown by that `wait` does not reach the caller, the program is ended. -/
def Request.destroy {H T : Type} (hd : RequestHandler H T) (h : H) (s : Impl T) :
    Result H T Unit :=
  if !s.isRelinquished then
    let r := Future.wait hd h s LB_TIMEOUT_INDEFINITE
    ⟨(r.outcome.map (fun _ => ())).noexcept, r.impl, r.handler, r.calls⟩
  else
    ⟨Outcome.returned (), s, h, []⟩

/-- The constructor `Request( handler, request )`:
`Future< T >( new Impl( handler, request ))`.  It only builds the core. -/
def Request.new {H T : Type} [Zero T] (h : H) (req : Nat) : Result H T Unit :=
  ⟨Outcome.returned (), Impl.new req, h, []⟩

/-! ## The blocking operators of `Future< T >` -/

/-- The member `Future< void >::wait( timeout )`: `impl_->wait( timeout )`
on a core of `Request< void >`. -/
def Future.waitVoid {H T : Type} (hd : RequestHandler H T) (h : H) (s : Impl T)
    (timeout : Nat) : Result H T Unit :=
  Impl.waitVoid hd h s timeout

/-- The conversion `operator bool_t()`:
`wait() ? &Future< T >::bool_true : 0`.  The member pointer handed back is
non-null, hence true where a truth value is asked for, exactly when the value
of `wait()` converts to true; for an integer `v` that is `v != 0`. -/
def Future.operatorBool {H T : Type} [Zero T] [DecidableEq T]
    (hd : RequestHandler H T) (h : H) (s : Impl T) : Result H T Bool :=
  let r := Future.wait hd h s LB_TIMEOUT_INDEFINITE
  ⟨r.outcome.map (fun v => decide (v ≠ 0)), r.impl, r.handler, r.calls⟩

/-- The member `operator ! ()`: `!wait()`; for an integer `v`, `!v` is
`v == 0`. -/
def Future.operatorNot {H T : Type} [Zero T] [DecidableEq T]
    (hd : RequestHandler H T) (h : H) (s : Impl T) : Result H T Bool :=
  let r := Future.wait hd h s LB_TIMEOUT_INDEFINITE
  ⟨r.outcome.map (fun v => decide (v = 0)), r.impl, r.handler, r.calls⟩

/-- The member `operator == ( rhs )`: `wait() == rhs`. -/
def Future.operatorEq {H T : Type} [DecidableEq T]
    (hd : RequestHandler H T) (h : H) (s : Impl T) (rhs : T) : Result H T Bool :=
  let r := Future.wait hd h s LB_TIMEOUT_INDEFINITE
  ⟨r.outcome.map (fun v => decide (v = rhs)), r.impl, r.handler, r.calls⟩

/-- The member `operator != ( rhs )`: `wait() != rhs`. -/
def Future.operatorNe {H T : Type} [DecidableEq T]
    (hd : RequestHandler H T) (h : H) (s : Impl T) (rhs : T) : Result H T Bool :=
  let r := Future.wait hd h s LB_TIMEOUT_INDEFINITE
  ⟨r.outcome.map (fun v => decide (v ≠ rhs)), r.impl, r.handler, r.calls⟩

/-- The member `operator < ( rhs )`: `wait() < rhs`. -/
def Future.operatorLt {H T : Type} [LinearOrder T]
    (hd : RequestHandler H T) (h : H) (s : Impl T) (rhs : T) : Result H T Bool :=
  let r := Future.wait hd h s LB_TIMEOUT_INDEFINITE
  ⟨r.outcome.map (fun v => decide (v < rhs)), r.impl, r.handler, r.calls⟩

/-- The member `operator > ( rhs )`: `wait() > rhs`. -/
def Future.operatorGt {H T : Type} [LinearOrder T]
    (hd : RequestHandler H T) (h : H) (s : Impl T) (rhs : T) : Result H T Bool :=
  let r := Future.wait hd h s LB_TIMEOUT_INDEFINITE
  ⟨r.outcome.map (fun v => decide (v > rhs)), r.impl, r.handler, r.calls⟩

/-- The member `operator <= ( rhs )`: `wait() <= rhs`. -/
def Future.operatorLe {H T : Type} [LinearOrder T]
    (hd : RequestHandler H T) (h : H) (s : Impl T) (rhs : T) : Result H T Bool :=
  let r := Future.wait hd h s LB_TIMEOUT_INDEFINITE
  ⟨r.outcome.map (fun v => decide (v ≤ rhs)), r.impl, r.handler, r.calls⟩

/-- The member `operator >= ( rhs )`: `wait() >= rhs`. -/
def Future.operatorGe {H T : Type} [LinearOrder T]
    (hd : RequestHandler H T) (h : H) (s : Impl T) (rhs : T) : Result H T Bool :=
  let r := Future.wait hd h s LB_TIMEOUT_INDEFINITE
  ⟨r.outcome.map (fun v => decide (v ≥ rhs)), r.impl, r.handler, r.calls⟩

/-- The specialisation `Future< void >::operator == ( const value_t& )`:
`return true`.  The argument is unnamed and unused; `value_t` is `void*`
for `void`, the type of the `_result` slot of the core. -/
def Future.operatorEqVoid {H T : Type} (h : H) (s : Impl T) (_rhs : T) :
    Result H T Bool :=
  ⟨Outcome.returned true, s, h, []⟩

/-! ## Sequences of operations on one core -/

/-- An operation a caller can invoke on a request. -/
inductive Op where
  | wait (timeout : Nat)
  | isReady
  | relinquish
  deriving DecidableEq

/-- What an operation of a sequence handed back to its caller. -/
inductive Ret (T : Type) where
  | value (v : T)
  | ready (b : Bool)
  | unit
  deriving DecidableEq

/-- One operation of a sequence, run on the core `s` with the handler in
state `h`. -/
def Op.run {H T : Type} (hd : RequestHandler H T) (o : Op) (h : H) (s : Impl T) :
    Result H T (Ret T) :=
  match o with
  | Op.wait timeout =>
      let r := Future.wait hd h s timeout
      ⟨r.outcome.map Ret.value, r.impl, r.handler, r.calls⟩
  | Op.isReady =>
      let r := Future.isReady hd h s
      ⟨r.outcome.map Ret.ready, r.impl, r.handler, r.calls⟩
  | Op.relinquish =>
      let r := Request.relinquish h s
      ⟨r.outcome.map (fun _ => Ret.unit), r.impl, r.handler, r.calls⟩

/-- Run a sequence of operations in order and record the result of each one.
A `FutureTimeout` is caught by the caller, who goes on with the next
operation; the fatal outcome ends the run. -/
def runOps {H T : Type} (hd : RequestHandler H T) :
    List Op → H → Impl T → List (Result H T (Ret T))
  | [], _, _ => []
  | o :: os, h, s =>
      let r := o.run hd h s
      r :: (match r.outcome with
            | Outcome.fatal => []
            | _ => runOps hd os r.handler r.impl)

/-- The core after a recorded run that started from `s`. -/
def finalImpl {H T α : Type} (s : Impl T) : List (Result H T α) → Impl T
  | [] => s
  | r :: rest => finalImpl r.impl rest

/-- The handler state after a recorded run that started from `h`. -/
def finalHandler {H T α : Type} (h : H) : List (Result H T α) → H
  | [] => h
  | r :: rest => finalHandler r.handler rest

/-! ## Handles sharing a core

A `Future< T >` holds one data member, the reference `impl_` to its core;
copies of a handle hold the same reference.  The cores live in a store
indexed by address, and an operation through a handle reads the core at
`impl_` and writes it back. -/

/-- The cores of the program, by address. -/
def Store (T : Type) : Type := Nat → Impl T

/-- A `Future< T >` value: the address its `impl_` refers to. -/
structure Handle where
  impl_ : Nat
  deriving DecidableEq

/-- The effect of an operation made through a handle. -/
structure SharedResult (H T α : Type) where
  outcome : Outcome α
  store : Store T
  handler : H
  calls : List HandlerCall

/-- The store with the core at address `a` replaced by `c`. -/
def Store.set {T : Type} (σ : Store T) (a : Nat) (c : Impl T) : Store T :=
  fun x => if x = a then c else σ x

/-- The member `Future< T >::wait( timeout )` through the reference:
`impl_->wait( timeout )`. -/
def Handle.wait {H T : Type} (hd : RequestHandler H T) (h : H) (σ : Store T)
    (f : Handle) (timeout : Nat) : SharedResult H T T :=
  let r := Impl.wait hd h (σ f.impl_) timeout
  ⟨r.outcome, σ.set f.impl_ r.impl, r.handler, r.calls⟩

/-- The member `Future< T >::isReady()` through the reference:
`impl_->isReady()`. -/
def Handle.isReady {H T : Type} (hd : RequestHandler H T) (h : H) (σ : Store T)
    (f : Handle) : SharedResult H T Bool :=
  let r := Impl.isReady hd h (σ f.impl_)
  ⟨r.outcome, σ.set f.impl_ r.impl, r.handler, r.calls⟩

/-! ## Monotone evolution of a core -/

/-- The core `s2` is a possible later state of `s1`: a done flag that was set
is still set and the cached result is then the same, and a relinquished flag
that was set is still set. -/
def Impl.precedes {T : Type} (s1 s2 : Impl T) : Prop :=
  (s1._done = true → s2._done = true ∧ s2._result = s1._result) ∧
  (s1._relinquished = true → s2._relinquished = true)

/-! ## Handlers used as concrete instances -/

/-- A handler that completes every request at once with the value `7`; its
state counts the `waitRequest` calls it served. -/
def promptHandler : RequestHandler Nat Nat where
  waitRequest := fun h _ _ _ => ⟨true, 7, h + 1⟩
  isRequestReady := fun h _ => (true, h)

/-- A handler that never completes a request within the timeout and leaves
the by-reference result alone. -/
def stalledHandler : RequestHandler Nat Nat where
  waitRequest := fun h _ cur _ => ⟨false, cur, h + 1⟩
  isRequestReady := fun h _ => (false, h)

/-- A handler whose state is the number of `waitRequest` calls that still
time out; once it reaches zero the request completes with the value `7`. -/
def slowHandler : RequestHandler Nat Nat where
  waitRequest := fun h _ cur _ =>
    match h with
    | 0 => ⟨true, 7, 0⟩
    | n + 1 => ⟨false, cur, n⟩
  isRequestReady := fun h _ => (decide (h = 0), h)

/-- A handler whose poll answers "ready" although its `waitRequest` with the
same identifier then reports failure. -/
def incoherentHandler : RequestHandler Unit Nat where
  waitRequest := fun h _ cur _ => ⟨false, cur, h⟩
  isRequestReady := fun h _ => (true, h)

/-- A handler that resolves every request to the value `v` and polls
ready. -/
def resolvingHandler (v : Nat) : RequestHandler Unit Nat where
  waitRequest := fun h _ _ _ => ⟨true, v, h⟩
  isRequestReady := fun h _ => (true, h)

/-! ## Basic facts about single operations -/

/-- On a finished core every operation returns, makes no handler call and
leaves the core and the handler where they were, apart from the
relinquished flag. -/
theorem Op.run_of_done {H T : Type} (hd : RequestHandler H T) (o : Op) (h : H)
    (s : Impl T) (hs : s._done = true) :
    (o.run hd h s).impl._done = true ∧ (o.run hd h s).impl._result = s._result ∧
    (o.run hd h s).impl.request = s.request ∧ (o.run hd h s).handler = h ∧
    (o.run hd h s).calls = [] ∧ (o.run hd h s).outcome ≠ Outcome.fatal ∧
    (o.run hd h s).outcome ≠ Outcome.futureTimeout ∧
    (∀ x, (o.run hd h s).outcome = Outcome.returned (Ret.value x) → x = s._result) := by
  cases o <;>
    simp [Op.run, Future.wait, Future.isReady, Request.relinquish, Impl.wait,
      Impl.isReady, Impl.relinquish, Outcome.map, hs]

/-- A run on a finished core executes every operation, none of them calls
the handler, and the cached result stays what it was. -/
theorem runOps_of_done {H T : Type} (hd : RequestHandler H T) (ops : List Op) :
    ∀ (h : H) (s : Impl T), s._done = true →
      (runOps hd ops h s).length = ops.length ∧
      (∀ r ∈ runOps hd ops h s, r.calls = [] ∧ r.outcome ≠ Outcome.fatal ∧
        r.outcome ≠ Outcome.futureTimeout ∧
        ∀ x, r.outcome = Outcome.returned (Ret.value x) → x = s._result) ∧
      (finalImpl s (runOps hd ops h s))._done = true ∧
      (finalImpl s (runOps hd ops h s))._result = s._result ∧
      (finalImpl s (runOps hd ops h s)).request = s.request ∧
      finalHandler h (runOps hd ops h s) = h := by
  induction ops with
  | nil => intro h s hs; simp [runOps, finalImpl, finalHandler, hs]
  | cons o os ih =>
    intro h s hs
    obtain ⟨h1, h2, h3, h4, h5, h6, h7, h8⟩ := Op.run_of_done hd o h s hs
    obtain ⟨i1, i2, i3, i4, i5, i6⟩ := ih (o.run hd h s).handler (o.run hd h s).impl h1
    have hrun : runOps hd (o :: os) h s
        = o.run hd h s :: runOps hd os (o.run hd h s).handler (o.run hd h s).impl := by
      cases hout : (o.run hd h s).outcome with
      | returned v => simp only [runOps, hout]
      | futureTimeout => simp only [runOps, hout]
      | fatal => exact absurd hout h6
    rw [hrun]
    refine ⟨by simp [i1], ?_, ?_, ?_, ?_, ?_⟩
    · intro r hr
      rcases List.mem_cons.mp hr with rfl | hr
      · exact ⟨h5, h6, h7, h8⟩
      · obtain ⟨a, b, c, d⟩ := i2 r hr
        exact ⟨a, b, c, fun x hx => (d x hx).trans h2⟩
    · simpa [finalImpl] using i3
    · simpa [finalImpl] using i4.trans h2
    · simpa [finalImpl] using i5.trans h3
    · simpa [finalHandler, h4] using i6

/-- On a finished core `wait` hands back the cached result at once. -/
theorem Impl.wait_of_done {H T : Type} (hd : RequestHandler H T) (h : H)
    (s : Impl T) (timeout : Nat) (hs : s._done = true) :
    Impl.wait hd h s timeout = ⟨Outcome.returned s._result, s, h, []⟩ := by
  simp [Impl.wait, hs]

/-- A successful `wait` leaves the core finished with the returned value
cached. -/
theorem Impl.wait_returned {H T : Type} (hd : RequestHandler H T) (h : H)
    (s : Impl T) (timeout : Nat) (v : T)
    (hv : (Impl.wait hd h s timeout).outcome = Outcome.returned v) :
    (Impl.wait hd h s timeout).impl._done = true ∧
    (Impl.wait hd h s timeout).impl._result = v := by
  unfold Impl.wait at hv ⊢
  by_cases hd1 : s._done = true
  · simp [hd1] at hv ⊢
    exact hv
  · by_cases hr : s._relinquished = true
    · simp [hd1, hr, LBUNREACHABLE] at hv
    · by_cases hok : (hd.waitRequest h s.request s._result timeout).ok = true
      · simp [hd1, hr, hok] at hv ⊢
        exact hv
      · simp [hd1, hr, hok] at hv

/-- On a pending, attached core a `wait` whose handler call succeeds with
`r` returns `r`, caches it and sets done. -/
theorem Impl.wait_success {H T : Type} (hd : RequestHandler H T) (h : H)
    (s : Impl T) (timeout : Nat) (r : T) (h1 : H) (hdone : s._done = false)
    (hrel : s._relinquished = false)
    (hok : hd.waitRequest h s.request s._result timeout = ⟨true, r, h1⟩) :
    Impl.wait hd h s timeout
      = ⟨Outcome.returned r, ⟨s.request, r, true, false⟩, h1,
          [HandlerCall.waitRequest s.request timeout]⟩ := by
  simp [Impl.wait, hdone, hrel, hok]

/-- A `wait` that throws `FutureTimeout` was made on a pending, attached
core whose handler reported failure; the core is still pending and attached
afterwards and keeps its identifier. -/
theorem Impl.wait_futureTimeout {H T : Type} (hd : RequestHandler H T) (h : H)
    (s : Impl T) (timeout : Nat)
    (hto : (Impl.wait hd h s timeout).outcome = Outcome.futureTimeout) :
    s._done = false ∧ s._relinquished = false ∧
    (hd.waitRequest h s.request s._result timeout).ok = false ∧
    (Impl.wait hd h s timeout).impl._done = false ∧
    (Impl.wait hd h s timeout).impl._relinquished = false ∧
    (Impl.wait hd h s timeout).impl.request = s.request := by
  unfold Impl.wait at hto ⊢
  by_cases hd1 : s._done = true
  · simp [hd1] at hto
  · by_cases hr : s._relinquished = true
    · simp [hd1, hr, LBUNREACHABLE] at hto
    · by_cases hok : (hd.waitRequest h s.request s._result timeout).ok = true
      · simp [hd1, hr, hok] at hto
      · simp [hd1, hr, hok]

/-- A run of `wait` calls that all throw `FutureTimeout` executes every one of
them and ends on a core that is still pending and attached. -/
theorem runOps_waits_futureTimeout {H T : Type} (hd : RequestHandler H T)
    (ts : List Nat) :
    ∀ (h : H) (s : Impl T), s._done = false → s._relinquished = false →
      (∀ r ∈ runOps hd (ts.map Op.wait) h s, r.outcome = Outcome.futureTimeout) →
      (runOps hd (ts.map Op.wait) h s).length = ts.length ∧
      (finalImpl s (runOps hd (ts.map Op.wait) h s))._done = false ∧
      (finalImpl s (runOps hd (ts.map Op.wait) h s))._relinquished = false ∧
      (finalImpl s (runOps hd (ts.map Op.wait) h s)).request = s.request := by
  induction ts with
  | nil => intro h s hs hr _; simp [runOps, finalImpl, hs, hr]
  | cons t ts ih =>
    intro h s hs hr hall
    have hfirst : ((Op.wait t).run hd h s).outcome = Outcome.futureTimeout :=
      hall _ (by simp [runOps])
    have hrun : runOps hd ((t :: ts).map Op.wait) h s
        = (Op.wait t).run hd h s ::
            runOps hd (ts.map Op.wait) ((Op.wait t).run hd h s).handler
              ((Op.wait t).run hd h s).impl := by
      simp only [List.map_cons, runOps, hfirst]
    have hw : (Impl.wait hd h s t).outcome = Outcome.futureTimeout := by
      cases hout : (Impl.wait hd h s t).outcome with
      | returned v => simp [Op.run, Future.wait, Outcome.map, hout] at hfirst
      | futureTimeout => rfl
      | fatal => simp [Op.run, Future.wait, Outcome.map, hout] at hfirst
    obtain ⟨_, _, _, w4, w5, w6⟩ := Impl.wait_futureTimeout hd h s t hw
    rw [hrun] at hall ⊢
    obtain ⟨i1, i2, i3, i4⟩ := ih ((Op.wait t).run hd h s).handler
      ((Op.wait t).run hd h s).impl w4 w5 (fun r hr => hall r (List.mem_cons_of_mem _ hr))
    refine ⟨by simp [i1], ?_, ?_, ?_⟩
    · simpa [finalImpl] using i2
    · simpa [finalImpl] using i3
    · simpa [finalImpl] using i4.trans w6

/-- Two finished cores that cache the same result cannot be told apart by any
run: outcome, handler state and handler calls of every operation agree. -/
theorem runOps_done_congr {H T : Type} (hd : RequestHandler H T) (ops : List Op) :
    ∀ (h : H) (s1 s2 : Impl T), s1._done = true → s2._done = true →
      s1._result = s2._result →
      (runOps hd ops h s1).map (fun r => (r.outcome, r.handler, r.calls))
        = (runOps hd ops h s2).map (fun r => (r.outcome, r.handler, r.calls)) := by
  induction ops with
  | nil => intro h s1 s2 _ _ _; simp [runOps]
  | cons o os ih =>
    intro h s1 s2 h1 h2 hres
    cases o with
    | wait t =>
      have e1 := ih h s1 s2 h1 h2 hres
      simp [runOps, Op.run, Future.wait, Impl.wait, Outcome.map, h1, h2, hres]
      simpa using e1
    | isReady =>
      have e1 := ih h s1 s2 h1 h2 hres
      simp [runOps, Op.run, Future.isReady, Impl.isReady, Outcome.map, h1, h2]
      simpa using e1
    | relinquish =>
      have e1 := ih h { s1 with _relinquished := true } { s2 with _relinquished := true }
        h1 h2 hres
      simp [runOps, Op.run, Request.relinquish, Impl.relinquish, Outcome.map]
      simpa using e1

/-- One operation keeps the identifier of the core and never takes it back:
a set done flag stays set with the same cached result, a set relinquished
flag stays set. -/
theorem Op.run_precedes {H T : Type} (hd : RequestHandler H T) (o : Op) (h : H)
    (s : Impl T) :
    s.precedes (o.run hd h s).impl ∧ (o.run hd h s).impl.request = s.request := by
  cases o with
  | wait t =>
    simp only [Op.run, Future.wait, Impl.wait, Impl.precedes, LBUNREACHABLE]
    by_cases hd1 : s._done = true
    · simp [hd1]
    · by_cases hr : s._relinquished = true
      · simp [hd1, hr]
      · by_cases hok : (hd.waitRequest h s.request s._result t).ok = true <;>
          simp [hd1, hr, hok]
  | isReady =>
    simp only [Op.run, Future.isReady, Impl.isReady, Impl.precedes]
    by_cases hd1 : s._done = true
    · simp [hd1]
    · by_cases hr : s._relinquished = true <;> simp [hd1, hr]
  | relinquish =>
    simp [Op.run, Request.relinquish, Impl.relinquish, Impl.precedes]

/-- Every core is a possible later state of itself. -/
theorem Impl.precedes_refl {T : Type} (s : Impl T) : s.precedes s :=
  ⟨fun hs => ⟨hs, rfl⟩, fun hs => hs⟩

/-- Later states of later states are later states. -/
theorem Impl.precedes_trans {T : Type} {s1 s2 s3 : Impl T} (h12 : s1.precedes s2)
    (h23 : s2.precedes s3) : s1.precedes s3 := by
  refine ⟨fun hs => ?_, fun hs => h23.2 (h12.2 hs)⟩
  obtain ⟨a, b⟩ := h12.1 hs
  obtain ⟨c, d⟩ := h23.1 a
  exact ⟨c, d.trans b⟩

/-- Every core recorded in a run is a possible later state of the core the
run started from and carries the same identifier. -/
theorem runOps_precedes {H T : Type} (hd : RequestHandler H T) (ops : List Op) :
    ∀ (h : H) (s : Impl T), ∀ r ∈ runOps hd ops h s,
      s.precedes r.impl ∧ r.impl.request = s.request := by
  induction ops with
  | nil => intro h s r hr; simp [runOps] at hr
  | cons o os ih =>
    intro h s r hr
    obtain ⟨p1, p2⟩ := Op.run_precedes hd o h s
    simp only [runOps, List.mem_cons] at hr
    rcases hr with rfl | hr
    · exact ⟨p1, p2⟩
    · cases hout : (o.run hd h s).outcome with
      | fatal => simp [hout] at hr
      | returned v =>
        simp only [hout] at hr
        obtain ⟨q1, q2⟩ := ih _ _ r hr
        exact ⟨Impl.precedes_trans p1 q1, q2.trans p2⟩
      | futureTimeout =>
        simp only [hout] at hr
        obtain ⟨q1, q2⟩ := ih _ _ r hr
        exact ⟨Impl.precedes_trans p1 q1, q2.trans p2⟩

/-- Along a run, every recorded core is a possible later state of every core
recorded before it. -/
theorem runOps_pairwise_precedes {H T : Type} (hd : RequestHandler H T)
    (ops : List Op) :
    ∀ (h : H) (s : Impl T),
      List.Pairwise Impl.precedes (s :: (runOps hd ops h s).map (fun r => r.impl)) := by
  induction ops with
  | nil => intro h s; simp [runOps]
  | cons o os ih =>
    intro h s
    rw [List.pairwise_cons]
    refine ⟨?_, ?_⟩
    · intro s2 hs2
      obtain ⟨r, hr, rfl⟩ := List.mem_map.mp hs2
      exact (runOps_precedes hd (o :: os) h s r hr).1
    · cases hout : (o.run hd h s).outcome with
      | fatal => simp [runOps, hout]
      | returned v =>
        simpa [runOps, hout] using ih (o.run hd h s).handler (o.run hd h s).impl
      | futureTimeout =>
        simpa [runOps, hout] using ih (o.run hd h s).handler (o.run hd h s).impl

/-- The core at the end of a run carries the identifier of the core the run
started from. -/
theorem finalImpl_request {H T : Type} (hd : RequestHandler H T) (ops : List Op) :
    ∀ (h : H) (s : Impl T), (finalImpl s (runOps hd ops h s)).request = s.request := by
  induction ops with
  | nil => intro h s; simp [runOps, finalImpl]
  | cons o os ih =>
    intro h s
    have p2 := (Op.run_precedes hd o h s).2
    cases hout : (o.run hd h s).outcome with
    | fatal => simpa [runOps, hout, finalImpl] using p2
    | returned v =>
      simpa [runOps, hout, finalImpl] using (ih (o.run hd h s).handler _).trans p2
    | futureTimeout =>
      simpa [runOps, hout, finalImpl] using (ih (o.run hd h s).handler _).trans p2

/-- Writing back the core that is already stored leaves the store as it
was. -/
theorem Store.set_self {T : Type} (σ : Store T) (a : Nat) : σ.set a (σ a) = σ := by
  funext x
  by_cases hx : x = a <;> simp [Store.set, hx]

/-- The core written at an address is the core read there. -/
theorem Store.set_get {T : Type} (σ : Store T) (a : Nat) (c : Impl T) :
    (σ.set a c) a = c := by
  simp [Store.set]

/-- Through a handle on a finished core `wait` hands back the cached result
and changes nothing. -/
theorem Handle.wait_shared_done {H T : Type} (hd : RequestHandler H T) (h : H)
    (σ : Store T) (f : Handle) (timeout : Nat) (hs : (σ f.impl_)._done = true) :
    Handle.wait hd h σ f timeout = ⟨Outcome.returned (σ f.impl_)._result, σ, h, []⟩ := by
  simp only [Handle.wait, Impl.wait_of_done hd h _ timeout hs, Store.set_self]

/-- Through a handle on a finished core `isReady` returns true and changes
nothing. -/
theorem Handle.isReady_shared_done {H T : Type} (hd : RequestHandler H T) (h : H)
    (σ : Store T) (f : Handle) (hs : (σ f.impl_)._done = true) :
    Handle.isReady hd h σ f = ⟨Outcome.returned true, σ, h, []⟩ := by
  have e : Impl.isReady hd h (σ f.impl_) = ⟨Outcome.returned true, σ f.impl_, h, []⟩ := by
    simp [Impl.isReady, hs]
  simp only [Handle.isReady, e, Store.set_self]

/-! ## Claims -/

/-- C1 (memoization): once `wait( t1 )` has returned `v`, then after any
further sequence of `wait`, `isReady` and `relinquish` calls a `wait( t2 )`
returns the same `v`, makes no handler call and changes neither the core
nor the handler; the intermediate operations all return, none of them calls
the handler, and every value an intermediate `wait` hands back is `v`. -/
theorem wait_memoized {H T : Type} (hd : RequestHandler H T) (h : H) (s : Impl T)
    (t1 : Nat) (v : T) (hv : (Future.wait hd h s t1).outcome = Outcome.returned v)
    (ops : List Op) (t2 : Nat) :
    Future.wait hd
        (finalHandler (Future.wait hd h s t1).handler
          (runOps hd ops (Future.wait hd h s t1).handler (Future.wait hd h s t1).impl))
        (finalImpl (Future.wait hd h s t1).impl
          (runOps hd ops (Future.wait hd h s t1).handler (Future.wait hd h s t1).impl))
        t2
      = ⟨Outcome.returned v,
          finalImpl (Future.wait hd h s t1).impl
            (runOps hd ops (Future.wait hd h s t1).handler (Future.wait hd h s t1).impl),
          (Future.wait hd h s t1).handler, []⟩ ∧
    (runOps hd ops (Future.wait hd h s t1).handler (Future.wait hd h s t1).impl).length
      = ops.length ∧
    ∀ r ∈ runOps hd ops (Future.wait hd h s t1).handler (Future.wait hd h s t1).impl,
      r.calls = [] ∧ r.outcome ≠ Outcome.fatal ∧ r.outcome ≠ Outcome.futureTimeout ∧
      ∀ x, r.outcome = Outcome.returned (Ret.value x) → x = v := by
  obtain ⟨hdone, hres⟩ := Impl.wait_returned hd h s t1 v hv
  obtain ⟨i1, i2, i3, i4, _, i6⟩ :=
    runOps_of_done hd ops (Future.wait hd h s t1).handler (Future.wait hd h s t1).impl hdone
  refine ⟨?_, i1, ?_⟩
  · rw [i6]
    simp only [Future.wait] at i3 i4 hres ⊢
    rw [Impl.wait_of_done hd _ _ t2 i3, i4, hres]
  · intro r hr
    obtain ⟨a, b, c, d⟩ := i2 r hr
    exact ⟨a, b, c, fun x hx => (d x hx).trans hres⟩

/-- Witness of C1: the prompt handler resolves request 42 to 7; after
`isReady`, `relinquish` and another `wait` a `wait( 0 )` still returns 7. -/
theorem wait_memoized_witness :
    (Future.wait promptHandler 0 (⟨42, 0, false, false⟩ : Impl Nat) 5).outcome
        = Outcome.returned 7 ∧
    Future.wait promptHandler 1 (⟨42, 7, true, true⟩ : Impl Nat) 0
        = ⟨Outcome.returned 7, ⟨42, 7, true, true⟩, 1, []⟩ :=
  ⟨by decide,
   (wait_memoized promptHandler 0 ⟨42, 0, false, false⟩ 5 7 (by decide)
      [Op.isReady, Op.relinquish, Op.wait 3] 0).1⟩

/-- C2: on a pending, attached core `wait( timeout )` makes exactly one
handler call, `waitRequest` with the identifier of the core and the given
timeout, and hands the handler over in the state that call left; when the
handler reports success with result `r`, `wait` returns `r`, caches `r` and
sets done, with the relinquished flag and the identifier unchanged. -/
theorem wait_pending_attached {H T : Type} (hd : RequestHandler H T) (h : H)
    (s : Impl T) (timeout : Nat) (hdone : s._done = false)
    (hrel : s._relinquished = false) :
    (Impl.wait hd h s timeout).calls = [HandlerCall.waitRequest s.request timeout] ∧
    (Impl.wait hd h s timeout).handler
      = (hd.waitRequest h s.request s._result timeout).handler ∧
    ∀ (r : T) (h1 : H), hd.waitRequest h s.request s._result timeout = ⟨true, r, h1⟩ →
      Impl.wait hd h s timeout
        = ⟨Outcome.returned r, ⟨s.request, r, true, s._relinquished⟩, h1,
            [HandlerCall.waitRequest s.request timeout]⟩ := by
  refine ⟨?_, ?_, ?_⟩
  · unfold Impl.wait
    by_cases hok : (hd.waitRequest h s.request s._result timeout).ok = true <;>
      simp [hdone, hrel, hok]
  · unfold Impl.wait
    by_cases hok : (hd.waitRequest h s.request s._result timeout).ok = true <;>
      simp [hdone, hrel, hok]
  · intro r h1 hreply
    simp [Impl.wait, hdone, hrel, hreply]

/-- Witness of C2: request 42, pending and attached, resolved to 7 by the
prompt handler. -/
theorem wait_pending_attached_witness :
    (Impl.wait promptHandler 0 (⟨42, 0, false, false⟩ : Impl Nat) 5).calls
        = [HandlerCall.waitRequest 42 5] ∧
    Impl.wait promptHandler 0 (⟨42, 0, false, false⟩ : Impl Nat) 5
        = ⟨Outcome.returned 7, ⟨42, 7, true, false⟩, 1, [HandlerCall.waitRequest 42 5]⟩ :=
  ⟨(wait_pending_attached promptHandler 0 ⟨42, 0, false, false⟩ 5 rfl rfl).1,
   (wait_pending_attached promptHandler 0 ⟨42, 0, false, false⟩ 5 rfl rfl).2.2 7 1 rfl⟩

/-- C3 (timeout atomicity): on a pending, attached core, when `waitRequest`
returns false and leaves the by-reference result as it found it,
`wait( timeout )` throws `FutureTimeout` after that single handler call and
the core is exactly the one before the call. -/
theorem wait_timeout_atomic {H T : Type} (hd : RequestHandler H T) (h : H)
    (s : Impl T) (timeout : Nat) (hdone : s._done = false)
    (hrel : s._relinquished = false) (h1 : H)
    (hfail : hd.waitRequest h s.request s._result timeout = ⟨false, s._result, h1⟩) :
    Impl.wait hd h s timeout
      = ⟨Outcome.futureTimeout, s, h1, [HandlerCall.waitRequest s.request timeout]⟩ := by
  cases s with
  | mk req res d rl =>
    simp only at hdone hrel hfail
    subst hdone hrel
    simp [Impl.wait, hfail]

/-- Witness of C3: request 42 on the stalled handler. -/
theorem wait_timeout_atomic_witness :
    Impl.wait stalledHandler 0 (⟨42, 3, false, false⟩ : Impl Nat) 5
      = ⟨Outcome.futureTimeout, ⟨42, 3, false, false⟩, 1, [HandlerCall.waitRequest 42 5]⟩ :=
  wait_timeout_atomic stalledHandler 0 ⟨42, 3, false, false⟩ 5 rfl rfl 1 rfl

/-- C4 (timeout retry): after one or more `wait` calls that all threw
`FutureTimeout`, a `wait( t )` for which the handler reports success with
result `r` returns `r` and leaves the core done with `r` cached, whatever
the number of earlier timeouts. -/
theorem wait_retry_after_timeouts {H T : Type} (hd : RequestHandler H T) (h : H)
    (s : Impl T) (ts : List Nat) (hne : ts ≠ [])
    (hto : ∀ r ∈ runOps hd (ts.map Op.wait) h s, r.outcome = Outcome.futureTimeout)
    (t : Nat) (r : T) (h1 : H)
    (hok : hd.waitRequest (finalHandler h (runOps hd (ts.map Op.wait) h s))
        (finalImpl s (runOps hd (ts.map Op.wait) h s)).request
        (finalImpl s (runOps hd (ts.map Op.wait) h s))._result t = ⟨true, r, h1⟩) :
    (runOps hd (ts.map Op.wait) h s).length = ts.length ∧
    Future.wait hd (finalHandler h (runOps hd (ts.map Op.wait) h s))
        (finalImpl s (runOps hd (ts.map Op.wait) h s)) t
      = ⟨Outcome.returned r, ⟨s.request, r, true, false⟩, h1,
          [HandlerCall.waitRequest s.request t]⟩ := by
  obtain ⟨t0, ts0, rfl⟩ := List.exists_cons_of_ne_nil hne
  have hfirst : ((Op.wait t0).run hd h s).outcome = Outcome.futureTimeout :=
    hto _ (by simp [runOps])
  have hw : (Impl.wait hd h s t0).outcome = Outcome.futureTimeout := by
    cases hout : (Impl.wait hd h s t0).outcome with
    | returned v => simp [Op.run, Future.wait, Outcome.map, hout] at hfirst
    | futureTimeout => rfl
    | fatal => simp [Op.run, Future.wait, Outcome.map, hout] at hfirst
  obtain ⟨w1, w2, _⟩ := Impl.wait_futureTimeout hd h s t0 hw
  obtain ⟨i1, i2, i3, i4⟩ := runOps_waits_futureTimeout hd (t0 :: ts0) h s w1 w2 hto
  refine ⟨i1, ?_⟩
  rw [Future.wait, Impl.wait_success hd _ _ t r h1 i2 i3 hok, i4]

/-- Witness of C4: the slow handler lets two `wait` calls on request 5 time
out and then resolves it to 7. -/
theorem wait_retry_after_timeouts_witness :
    (∀ r ∈ runOps slowHandler ([10, 20].map Op.wait) 2 (⟨5, 0, false, false⟩ : Impl Nat),
      r.outcome = Outcome.futureTimeout) ∧
    Future.wait slowHandler
        (finalHandler 2 (runOps slowHandler ([10, 20].map Op.wait) 2
          (⟨5, 0, false, false⟩ : Impl Nat)))
        (finalImpl ⟨5, 0, false, false⟩ (runOps slowHandler ([10, 20].map Op.wait) 2
          (⟨5, 0, false, false⟩ : Impl Nat))) 30
      = ⟨Outcome.returned 7, ⟨5, 7, true, false⟩, 0, [HandlerCall.waitRequest 5 30]⟩ :=
  ⟨by decide,
   (wait_retry_after_timeouts slowHandler 2 ⟨5, 0, false, false⟩ [10, 20] (by decide)
      (by decide) 30 7 0 (by decide)).2⟩

/-- Counterexample to C5 as stated: with a handler whose poll answers
"ready" while its `waitRequest` fails, `isReady()` returns true on the
pending request 42 and the `wait( 0 )` that follows throws `FutureTimeout`. -/
theorem isReady_then_wait_counterexample :
    Future.isReady incoherentHandler () (⟨42, 0, false, false⟩ : Impl Nat)
      = ⟨Outcome.returned true, ⟨42, 0, false, false⟩, (),
          [HandlerCall.isRequestReady 42]⟩ ∧
    Future.wait incoherentHandler () (⟨42, 0, false, false⟩ : Impl Nat) 0
      = ⟨Outcome.futureTimeout, ⟨42, 0, false, false⟩, (),
          [HandlerCall.waitRequest 42 0]⟩ := by
  decide

/-- C5, amended: for a handler whose `waitRequest( id, ·, 0 )` succeeds
whenever the poll `isRequestReady( id )` just before it answered true (`id`
the identifier of the core), if `isReady()` returns true then the `wait( 0 )`
that follows returns a value: it neither throws `FutureTimeout` nor ends
fatally. -/
theorem isReady_then_wait_returns {H T : Type} (hd : RequestHandler H T) (h : H)
    (s : Impl T)
    (hcoh : ∀ (h0 : H) (cur : T), (hd.isRequestReady h0 s.request).1 = true →
      (hd.waitRequest (hd.isRequestReady h0 s.request).2 s.request cur 0).ok = true)
    (hready : (Future.isReady hd h s).outcome = Outcome.returned true) :
    ∃ v, (Future.wait hd (Future.isReady hd h s).handler (Future.isReady hd h s).impl
      0).outcome = Outcome.returned v := by
  simp only [Future.isReady, Future.wait] at hready ⊢
  by_cases hd1 : s._done = true
  · exact ⟨s._result, by simp [Impl.isReady, Impl.wait, hd1]⟩
  · by_cases hr : s._relinquished = true
    · simp [Impl.isReady, hd1, hr] at hready
    · have hpoll : (hd.isRequestReady h s.request).1 = true := by
        simpa [Impl.isReady, hd1, hr] using hready
      have hok := hcoh h s._result hpoll
      exact ⟨(hd.waitRequest (hd.isRequestReady h s.request).2 s.request s._result
        0).result, by simp [Impl.isReady, Impl.wait, hd1, hr, hok]⟩

/-- Witness of C5 amended: the prompt handler polls ready and resolves
request 42 to 7. -/
theorem isReady_then_wait_returns_witness :
    (Future.isReady promptHandler 0 (⟨42, 0, false, false⟩ : Impl Nat)).outcome
        = Outcome.returned true ∧
    ∃ v, (Future.wait promptHandler
        (Future.isReady promptHandler 0 (⟨42, 0, false, false⟩ : Impl Nat)).handler
        (Future.isReady promptHandler 0 (⟨42, 0, false, false⟩ : Impl Nat)).impl
        0).outcome = Outcome.returned v :=
  ⟨by decide,
   isReady_then_wait_returns promptHandler 0 ⟨42, 0, false, false⟩
     (fun _ _ _ => rfl) (by decide)⟩

/-- C6: `isReady()` returns true on a finished core without any handler call;
on a pending, attached core it returns the answer of the single poll
`isRequestReady( request )`; on a pending, relinquished core it returns false
without any handler call.  It always returns a boolean, never calls
`waitRequest`, and leaves the core as it was; the handle delegates to it. -/
theorem isReady_cases {H T : Type} (hd : RequestHandler H T) (h : H) (s : Impl T) :
    (s._done = true → Impl.isReady hd h s = ⟨Outcome.returned true, s, h, []⟩) ∧
    (s._done = false → s._relinquished = false →
      Impl.isReady hd h s
        = ⟨Outcome.returned (hd.isRequestReady h s.request).1, s,
            (hd.isRequestReady h s.request).2,
            [HandlerCall.isRequestReady s.request]⟩) ∧
    (s._done = false → s._relinquished = true →
      Impl.isReady hd h s = ⟨Outcome.returned false, s, h, []⟩) ∧
    (∀ req t, HandlerCall.waitRequest req t ∉ (Impl.isReady hd h s).calls) ∧
    (∃ b, (Impl.isReady hd h s).outcome = Outcome.returned b) ∧
    (Impl.isReady hd h s).impl = s ∧
    Future.isReady hd h s = Impl.isReady hd h s := by
  refine ⟨?_, ?_, ?_, ?_, ?_, ?_, rfl⟩
  · intro hd1; simp [Impl.isReady, hd1]
  · intro hd1 hr; simp [Impl.isReady, hd1, hr]
  · intro hd1 hr; simp [Impl.isReady, hd1, hr]
  · intro req t
    unfold Impl.isReady
    by_cases hd1 : s._done = true <;> by_cases hr : s._relinquished = true <;>
      simp [hd1, hr]
  · unfold Impl.isReady
    by_cases hd1 : s._done = true <;> by_cases hr : s._relinquished = true <;>
      simp [hd1, hr]
  · unfold Impl.isReady
    by_cases hd1 : s._done = true <;> by_cases hr : s._relinquished = true <;>
      simp [hd1, hr]

/-- Witness of C6: the three cases on request 42 with the stalled handler. -/
theorem isReady_cases_witness :
    Impl.isReady stalledHandler 0 (⟨42, 7, true, true⟩ : Impl Nat)
      = ⟨Outcome.returned true, ⟨42, 7, true, true⟩, 0, []⟩ ∧
    Impl.isReady stalledHandler 0 (⟨42, 0, false, false⟩ : Impl Nat)
      = ⟨Outcome.returned false, ⟨42, 0, false, false⟩, 0,
          [HandlerCall.isRequestReady 42]⟩ ∧
    Impl.isReady promptHandler 0 (⟨42, 0, false, true⟩ : Impl Nat)
      = ⟨Outcome.returned false, ⟨42, 0, false, true⟩, 0, []⟩ :=
  ⟨(isReady_cases stalledHandler 0 ⟨42, 7, true, true⟩).1 rfl,
   (isReady_cases stalledHandler 0 ⟨42, 0, false, false⟩).2.1 rfl rfl,
   (isReady_cases promptHandler 0 ⟨42, 0, false, true⟩).2.2.1 rfl rfl⟩

/-- C7: on a relinquished core that is not done, `wait( timeout )` ends in the
fatal outcome for every timeout and every handler, in the generic member and
in the `void` specialisation alike: no value is returned, `FutureTimeout` is
not thrown, the handler is not called, and the core (its done flag included)
and the handler are left as they were. -/
theorem wait_relinquished_fatal {H T : Type} (hd : RequestHandler H T) (h : H)
    (s : Impl T) (timeout : Nat) (hdone : s._done = false)
    (hrel : s._relinquished = true) :
    Impl.wait hd h s timeout = ⟨Outcome.fatal, s, h, []⟩ ∧
    Impl.waitVoid hd h s timeout = ⟨Outcome.fatal, s, h, []⟩ ∧
    (∀ v, (Impl.wait hd h s timeout).outcome ≠ Outcome.returned v) ∧
    (Impl.wait hd h s timeout).outcome ≠ Outcome.futureTimeout ∧
    (Impl.wait hd h s timeout).calls = [] ∧
    (Impl.wait hd h s timeout).impl._done = false := by
  have e1 : Impl.wait hd h s timeout = ⟨Outcome.fatal, s, h, []⟩ := by
    simp [Impl.wait, LBUNREACHABLE, hdone, hrel]
  have e2 : Impl.waitVoid hd h s timeout = ⟨Outcome.fatal, s, h, []⟩ := by
    simp [Impl.waitVoid, LBUNREACHABLE, hdone, hrel]
  refine ⟨e1, e2, ?_, ?_, ?_, ?_⟩ <;> simp [e1, hdone]

/-- Witness of C7: request 42, relinquished while pending, with a handler
that would complete it at once. -/
theorem wait_relinquished_fatal_witness :
    Impl.wait promptHandler 0 (⟨42, 0, false, true⟩ : Impl Nat) 5
      = ⟨Outcome.fatal, ⟨42, 0, false, true⟩, 0, []⟩ :=
  (wait_relinquished_fatal promptHandler 0 ⟨42, 0, false, true⟩ 5 rfl rfl).1

/-- C8: `relinquish()` returns, sets the relinquished flag and leaves the
identifier, the cached result, the done flag and the handler untouched,
without any handler call; a second call yields the same result as the
first. -/
theorem relinquish_frame {H T : Type} (h : H) (s : Impl T) :
    Request.relinquish h s
      = ⟨Outcome.returned (), ⟨s.request, s._result, s._done, true⟩, h, []⟩ ∧
    Request.relinquish (Request.relinquish h s).handler (Request.relinquish h s).impl
      = Request.relinquish h s ∧
    (Request.relinquish h s).impl.isRelinquished = true := by
  simp [Request.relinquish, Impl.relinquish, Impl.isRelinquished]

/-- C9: destroying a request that is not relinquished performs
`wait( LB_TIMEOUT_INDEFINITE )`: core, handler and handler calls afterwards are
those of that wait, so a pending core makes the single handler call
`waitRequest( request, ·, LB_TIMEOUT_INDEFINITE )` and a finished core makes
none; the destructor returns when the wait returns and ends the program when
the wait does not return, it never throws.  Destroying a relinquished request
performs no wait and no handler call, whether the core is done or not. -/
theorem destroy_policy {H T : Type} (hd : RequestHandler H T) (h : H) (s : Impl T) :
    (s._relinquished = false →
      (Request.destroy hd h s).impl = (Future.wait hd h s LB_TIMEOUT_INDEFINITE).impl ∧
      (Request.destroy hd h s).handler
        = (Future.wait hd h s LB_TIMEOUT_INDEFINITE).handler ∧
      (Request.destroy hd h s).calls = (Future.wait hd h s LB_TIMEOUT_INDEFINITE).calls ∧
      (∀ v, (Future.wait hd h s LB_TIMEOUT_INDEFINITE).outcome = Outcome.returned v →
        (Request.destroy hd h s).outcome = Outcome.returned ()) ∧
      ((Future.wait hd h s LB_TIMEOUT_INDEFINITE).outcome = Outcome.futureTimeout →
        (Request.destroy hd h s).outcome = Outcome.fatal) ∧
      ((Future.wait hd h s LB_TIMEOUT_INDEFINITE).outcome = Outcome.fatal →
        (Request.destroy hd h s).outcome = Outcome.fatal)) ∧
    (s._relinquished = false → s._done = false →
      (Request.destroy hd h s).calls
        = [HandlerCall.waitRequest s.request LB_TIMEOUT_INDEFINITE]) ∧
    (s._relinquished = false → s._done = true →
      Request.destroy hd h s = ⟨Outcome.returned (), s, h, []⟩) ∧
    (s._relinquished = true →
      Request.destroy hd h s = ⟨Outcome.returned (), s, h, []⟩) ∧
    (Request.destroy hd h s).outcome ≠ Outcome.futureTimeout := by
  refine ⟨?_, ?_, ?_, ?_, ?_⟩
  · intro hr
    refine ⟨?_, ?_, ?_, ?_, ?_, ?_⟩
    · simp [Request.destroy, Impl.isRelinquished, hr]
    · simp [Request.destroy, Impl.isRelinquished, hr]
    · simp [Request.destroy, Impl.isRelinquished, hr]
    · intro v hv
      simp [Request.destroy, Impl.isRelinquished, hr, hv, Outcome.map, Outcome.noexcept]
    · intro hv
      simp [Request.destroy, Impl.isRelinquished, hr, hv, Outcome.map, Outcome.noexcept]
    · intro hv
      simp [Request.destroy, Impl.isRelinquished, hr, hv, Outcome.map, Outcome.noexcept]
  · intro hr hd1
    unfold Request.destroy Future.wait Impl.wait
    by_cases hok : (hd.waitRequest h s.request s._result LB_TIMEOUT_INDEFINITE).ok = true <;>
      simp [Impl.isRelinquished, hr, hd1, hok]
  · intro hr hd1
    simp [Request.destroy, Future.wait, Impl.wait, Impl.isRelinquished, Outcome.map,
      Outcome.noexcept, hr, hd1]
  · intro hr; simp [Request.destroy, Impl.isRelinquished, hr]
  · unfold Request.destroy
    by_cases hr : s._relinquished = true
    · simp [Impl.isRelinquished, hr]
    · cases hout : (Future.wait hd h s LB_TIMEOUT_INDEFINITE).outcome <;>
        simp [Impl.isRelinquished, hr, hout, Outcome.map, Outcome.noexcept]

/-- Witness of C9: destroying request 42 while pending waits indefinitely on
the handler; when that wait times out the program is ended; destroying the
request after `relinquish()` does not touch the handler even though the
stalled handler would never complete it. -/
theorem destroy_policy_witness :
    (Request.destroy promptHandler 0 (⟨42, 0, false, false⟩ : Impl Nat)).calls
      = [HandlerCall.waitRequest 42 LB_TIMEOUT_INDEFINITE] ∧
    (Request.destroy promptHandler 0 (⟨42, 0, false, false⟩ : Impl Nat)).outcome
      = Outcome.returned () ∧
    (Request.destroy stalledHandler 0 (⟨42, 0, false, false⟩ : Impl Nat)).outcome
      = Outcome.fatal ∧
    Request.destroy stalledHandler 0 (⟨42, 0, false, true⟩ : Impl Nat)
      = ⟨Outcome.returned (), ⟨42, 0, false, true⟩, 0, []⟩ :=
  ⟨(destroy_policy promptHandler 0 ⟨42, 0, false, false⟩).2.1 rfl rfl,
   ((destroy_policy promptHandler 0 ⟨42, 0, false, false⟩).1 rfl).2.2.2.1 7 rfl,
   ((destroy_policy stalledHandler 0 ⟨42, 0, false, false⟩).1 rfl).2.2.2.2.1 rfl,
   (destroy_policy stalledHandler 0 ⟨42, 0, false, true⟩).2.2.2.1 rfl⟩

/-- C10: on a finished core `relinquish()` changes nothing that later
operations show: with or without it, `wait( t )` returns the cached result,
`isReady()` returns true and destruction returns, all without handler calls
and with the handler unchanged; more generally every run of operations
yields the same outcomes, handler states and handler calls from both
cores. -/
theorem relinquish_done_no_effect {H T : Type} (hd : RequestHandler H T) (h : H)
    (s : Impl T) (hdone : s._done = true) (t : Nat) (ops : List Op) :
    Future.wait hd h (Request.relinquish h s).impl t
      = ⟨Outcome.returned s._result, (Request.relinquish h s).impl, h, []⟩ ∧
    Future.wait hd h s t = ⟨Outcome.returned s._result, s, h, []⟩ ∧
    Future.isReady hd h (Request.relinquish h s).impl
      = ⟨Outcome.returned true, (Request.relinquish h s).impl, h, []⟩ ∧
    Future.isReady hd h s = ⟨Outcome.returned true, s, h, []⟩ ∧
    Request.destroy hd h (Request.relinquish h s).impl
      = ⟨Outcome.returned (), (Request.relinquish h s).impl, h, []⟩ ∧
    Request.destroy hd h s = ⟨Outcome.returned (), s, h, []⟩ ∧
    (runOps hd ops h (Request.relinquish h s).impl).map
        (fun r => (r.outcome, r.handler, r.calls))
      = (runOps hd ops h s).map (fun r => (r.outcome, r.handler, r.calls)) := by
  refine ⟨?_, ?_, ?_, ?_, ?_, ?_, ?_⟩
  · simp [Future.wait, Impl.wait, Request.relinquish, Impl.relinquish, hdone]
  · simp [Future.wait, Impl.wait, hdone]
  · simp [Future.isReady, Impl.isReady, Request.relinquish, Impl.relinquish, hdone]
  · simp [Future.isReady, Impl.isReady, hdone]
  · simp [Request.destroy, Impl.isRelinquished, Request.relinquish, Impl.relinquish]
  · by_cases hr : s._relinquished = true <;>
      simp [Request.destroy, Future.wait, Impl.wait, Impl.isRelinquished, Outcome.map,
        Outcome.noexcept, hdone, hr]
  · exact runOps_done_congr hd ops h _ s
      (by simp [Request.relinquish, Impl.relinquish, hdone]) hdone
      (by simp [Request.relinquish, Impl.relinquish])

/-- Witness of C10: request 42 finished with 7; the stalled handler is never
asked. -/
theorem relinquish_done_no_effect_witness :
    Future.wait stalledHandler 0
        (Request.relinquish 0 (⟨42, 7, true, false⟩ : Impl Nat)).impl 5
      = ⟨Outcome.returned 7, ⟨42, 7, true, true⟩, 0, []⟩ ∧
    Future.wait stalledHandler 0 (⟨42, 7, true, false⟩ : Impl Nat) 5
      = ⟨Outcome.returned 7, ⟨42, 7, true, false⟩, 0, []⟩ :=
  ⟨(relinquish_done_no_effect stalledHandler 0 ⟨42, 7, true, false⟩ rfl 5 []).1,
   (relinquish_done_no_effect stalledHandler 0 ⟨42, 7, true, false⟩ rfl 5 []).2.1⟩

/-- C11: the boolean conversion of a future performs
`wait( LB_TIMEOUT_INDEFINITE )` and, when that wait returns `v`, yields true
exactly when `v` is non-zero; `operator !` on the same core and handler yields
the negation; both leave the core, the handler and the handler calls as the
wait produced them, also when the wait does not return. -/
theorem operatorBool_blocks {H T : Type} [Zero T] [DecidableEq T]
    (hd : RequestHandler H T) (h : H) (s : Impl T) :
    (∀ v, (Future.wait hd h s LB_TIMEOUT_INDEFINITE).outcome = Outcome.returned v →
      Future.operatorBool hd h s
        = ⟨Outcome.returned (decide (v ≠ 0)),
            (Future.wait hd h s LB_TIMEOUT_INDEFINITE).impl,
            (Future.wait hd h s LB_TIMEOUT_INDEFINITE).handler,
            (Future.wait hd h s LB_TIMEOUT_INDEFINITE).calls⟩ ∧
      Future.operatorNot hd h s
        = ⟨Outcome.returned (!decide (v ≠ 0)),
            (Future.wait hd h s LB_TIMEOUT_INDEFINITE).impl,
            (Future.wait hd h s LB_TIMEOUT_INDEFINITE).handler,
            (Future.wait hd h s LB_TIMEOUT_INDEFINITE).calls⟩) ∧
    (Future.operatorNot hd h s).outcome
      = (Future.operatorBool hd h s).outcome.map (fun b => !b) ∧
    (Future.operatorBool hd h s).impl = (Future.wait hd h s LB_TIMEOUT_INDEFINITE).impl ∧
    (Future.operatorNot hd h s).impl = (Future.wait hd h s LB_TIMEOUT_INDEFINITE).impl ∧
    (Future.operatorBool hd h s).calls = (Future.wait hd h s LB_TIMEOUT_INDEFINITE).calls ∧
    (Future.operatorNot hd h s).calls = (Future.wait hd h s LB_TIMEOUT_INDEFINITE).calls := by
  refine ⟨?_, ?_, rfl, rfl, rfl, rfl⟩
  · intro v hv
    simp [Future.operatorBool, Future.operatorNot, hv, Outcome.map]
  · simp only [Future.operatorBool, Future.operatorNot]
    cases (Future.wait hd h s LB_TIMEOUT_INDEFINITE).outcome <;> simp [Outcome.map]

/-- Witness of C11: request 5 resolved to 0 converts to false, resolved to 3
it converts to true. -/
theorem operatorBool_blocks_witness :
    Future.operatorBool (resolvingHandler 0) () (⟨5, 0, false, false⟩ : Impl Nat)
      = ⟨Outcome.returned false, ⟨5, 0, true, false⟩, (),
          [HandlerCall.waitRequest 5 LB_TIMEOUT_INDEFINITE]⟩ ∧
    Future.operatorBool (resolvingHandler 3) () (⟨5, 0, false, false⟩ : Impl Nat)
      = ⟨Outcome.returned true, ⟨5, 3, true, false⟩, (),
          [HandlerCall.waitRequest 5 LB_TIMEOUT_INDEFINITE]⟩ ∧
    Future.operatorNot (resolvingHandler 3) () (⟨5, 0, false, false⟩ : Impl Nat)
      = ⟨Outcome.returned false, ⟨5, 3, true, false⟩, (),
          [HandlerCall.waitRequest 5 LB_TIMEOUT_INDEFINITE]⟩ :=
  ⟨((operatorBool_blocks (resolvingHandler 0) () ⟨5, 0, false, false⟩).1 0 rfl).1,
   ((operatorBool_blocks (resolvingHandler 3) () ⟨5, 0, false, false⟩).1 3 rfl).1,
   ((operatorBool_blocks (resolvingHandler 3) () ⟨5, 0, false, false⟩).1 3 rfl).2⟩

/-- C12: each of `==`, `!=`, `<`, `>`, `<=`, `>=` performs
`wait( LB_TIMEOUT_INDEFINITE )`; when that wait returns `v` the operator
returns `v op rhs`, and when it throws `FutureTimeout` so does the operator;
in both cases the core, the handler and the handler calls are those of the
wait. -/
theorem comparisons_block {H T : Type} [LinearOrder T] (hd : RequestHandler H T)
    (h : H) (s : Impl T) (rhs : T) :
    (∀ v, (Future.wait hd h s LB_TIMEOUT_INDEFINITE).outcome = Outcome.returned v →
      ∀ (impl : Impl T) (h1 : H) (calls : List HandlerCall),
        impl = (Future.wait hd h s LB_TIMEOUT_INDEFINITE).impl →
        h1 = (Future.wait hd h s LB_TIMEOUT_INDEFINITE).handler →
        calls = (Future.wait hd h s LB_TIMEOUT_INDEFINITE).calls →
        Future.operatorEq hd h s rhs = ⟨Outcome.returned (decide (v = rhs)), impl, h1, calls⟩ ∧
        Future.operatorNe hd h s rhs = ⟨Outcome.returned (decide (v ≠ rhs)), impl, h1, calls⟩ ∧
        Future.operatorLt hd h s rhs = ⟨Outcome.returned (decide (v < rhs)), impl, h1, calls⟩ ∧
        Future.operatorGt hd h s rhs = ⟨Outcome.returned (decide (v > rhs)), impl, h1, calls⟩ ∧
        Future.operatorLe hd h s rhs = ⟨Outcome.returned (decide (v ≤ rhs)), impl, h1, calls⟩ ∧
        Future.operatorGe hd h s rhs = ⟨Outcome.returned (decide (v ≥ rhs)), impl, h1, calls⟩) ∧
    ((Future.wait hd h s LB_TIMEOUT_INDEFINITE).outcome = Outcome.futureTimeout →
      ∀ (impl : Impl T) (h1 : H) (calls : List HandlerCall),
        impl = (Future.wait hd h s LB_TIMEOUT_INDEFINITE).impl →
        h1 = (Future.wait hd h s LB_TIMEOUT_INDEFINITE).handler →
        calls = (Future.wait hd h s LB_TIMEOUT_INDEFINITE).calls →
        Future.operatorEq hd h s rhs = ⟨Outcome.futureTimeout, impl, h1, calls⟩ ∧
        Future.operatorNe hd h s rhs = ⟨Outcome.futureTimeout, impl, h1, calls⟩ ∧
        Future.operatorLt hd h s rhs = ⟨Outcome.futureTimeout, impl, h1, calls⟩ ∧
        Future.operatorGt hd h s rhs = ⟨Outcome.futureTimeout, impl, h1, calls⟩ ∧
        Future.operatorLe hd h s rhs = ⟨Outcome.futureTimeout, impl, h1, calls⟩ ∧
        Future.operatorGe hd h s rhs = ⟨Outcome.futureTimeout, impl, h1, calls⟩) := by
  refine ⟨?_, ?_⟩
  · intro v hv impl h1 calls e1 e2 e3
    subst e1 e2 e3
    simp [Future.operatorEq, Future.operatorNe, Future.operatorLt, Future.operatorGt,
      Future.operatorLe, Future.operatorGe, hv, Outcome.map]
  · intro hv impl h1 calls e1 e2 e3
    subst e1 e2 e3
    simp [Future.operatorEq, Future.operatorNe, Future.operatorLt, Future.operatorGt,
      Future.operatorLe, Future.operatorGe, hv, Outcome.map]

/-- Witness of C12: request 5 resolved to 3 and compared with 4; and the same
comparison when the handler lets the wait time out. -/
theorem comparisons_block_witness :
    (Future.operatorEq (resolvingHandler 3) () (⟨5, 0, false, false⟩ : Impl Nat) 4
        = ⟨Outcome.returned false, ⟨5, 3, true, false⟩, (),
            [HandlerCall.waitRequest 5 LB_TIMEOUT_INDEFINITE]⟩ ∧
      Future.operatorLt (resolvingHandler 3) () (⟨5, 0, false, false⟩ : Impl Nat) 4
        = ⟨Outcome.returned true, ⟨5, 3, true, false⟩, (),
            [HandlerCall.waitRequest 5 LB_TIMEOUT_INDEFINITE]⟩) ∧
    Future.operatorGe stalledHandler 0 (⟨5, 0, false, false⟩ : Impl Nat) 4
      = ⟨Outcome.futureTimeout, ⟨5, 0, false, false⟩, 1,
          [HandlerCall.waitRequest 5 LB_TIMEOUT_INDEFINITE]⟩ :=
  ⟨⟨((comparisons_block (resolvingHandler 3) () ⟨5, 0, false, false⟩ 4).1 3 rfl
        ⟨5, 3, true, false⟩ () [HandlerCall.waitRequest 5 LB_TIMEOUT_INDEFINITE]
        rfl rfl rfl).1,
     ((comparisons_block (resolvingHandler 3) () ⟨5, 0, false, false⟩ 4).1 3 rfl
        ⟨5, 3, true, false⟩ () [HandlerCall.waitRequest 5 LB_TIMEOUT_INDEFINITE]
        rfl rfl rfl).2.2.1⟩,
   ((comparisons_block stalledHandler 0 ⟨5, 0, false, false⟩ 4).2 rfl
      ⟨5, 0, false, false⟩ 1 [HandlerCall.waitRequest 5 LB_TIMEOUT_INDEFINITE]
      rfl rfl rfl).2.2.2.2.2⟩

/-- C13: once a `Future< void >` is resolved, that is after a `wait` on it has
returned, its equality comparison returns true for every right-hand side,
whatever payload the handler wrote into the result slot. -/
theorem void_equality_resolved {H T : Type} (hd : RequestHandler H T) (h : H)
    (s : Impl T) (timeout : Nat)
    (hres : (Future.waitVoid hd h s timeout).outcome = Outcome.returned ())
    (rhs payload : T) :
    (Future.operatorEqVoid (Future.waitVoid hd h s timeout).handler
      (Future.waitVoid hd h s timeout).impl rhs).outcome = Outcome.returned true ∧
    (Future.operatorEqVoid (Future.waitVoid hd h s timeout).handler
      { (Future.waitVoid hd h s timeout).impl with _result := payload } rhs).outcome
        = Outcome.returned true ∧
    (Future.waitVoid hd h s timeout).impl._done = true := by
  refine ⟨rfl, rfl, ?_⟩
  simp only [Future.waitVoid, Impl.waitVoid, LBUNREACHABLE] at hres ⊢
  by_cases hd1 : s._done = true
  · simp [hd1]
  · by_cases hr : s._relinquished = true
    · simp [hd1, hr] at hres
    · by_cases hok : (hd.waitRequest h s.request s._result timeout).ok = true
      · simp [hd1, hr, hok]
      · simp [hd1, hr, hok] at hres

/-- Witness of C13: request 5 of a `void` future, resolved by a handler that
reports the payload 3, compared with the marker 0. -/
theorem void_equality_resolved_witness :
    (Future.waitVoid (resolvingHandler 3) () (⟨5, 0, false, false⟩ : Impl Nat)
      LB_TIMEOUT_INDEFINITE).outcome = Outcome.returned () ∧
    (Future.operatorEqVoid () (⟨5, 3, true, false⟩ : Impl Nat) 0).outcome
      = Outcome.returned true :=
  ⟨rfl,
   (void_equality_resolved (resolvingHandler 3) () ⟨5, 0, false, false⟩
      LB_TIMEOUT_INDEFINITE rfl 0 3).1⟩

/-- C14 (sequential form): for two handles whose `impl_` refer to the same
core, once `wait` through the first has returned `v`, `isReady()` through the
second returns true and `wait( 0 )` through the second returns `v`, neither
calling the handler nor changing the store; and a handle operation returns
exactly what the operation of the core it refers to returns. -/
theorem shared_core_converges {H T : Type} (hd : RequestHandler H T) (h : H)
    (σ : Store T) (a b : Handle) (hab : a.impl_ = b.impl_) (t : Nat) (v : T)
    (hv : (Handle.wait hd h σ a t).outcome = Outcome.returned v) :
    Handle.isReady hd (Handle.wait hd h σ a t).handler (Handle.wait hd h σ a t).store b
      = ⟨Outcome.returned true, (Handle.wait hd h σ a t).store,
          (Handle.wait hd h σ a t).handler, []⟩ ∧
    Handle.wait hd (Handle.wait hd h σ a t).handler (Handle.wait hd h σ a t).store b 0
      = ⟨Outcome.returned v, (Handle.wait hd h σ a t).store,
          (Handle.wait hd h σ a t).handler, []⟩ ∧
    (Handle.wait hd h σ a t).outcome = (Impl.wait hd h (σ a.impl_) t).outcome ∧
    (Handle.wait hd h σ a t).store a.impl_ = (Impl.wait hd h (σ a.impl_) t).impl ∧
    (Handle.wait hd h σ a t).calls = (Impl.wait hd h (σ a.impl_) t).calls ∧
    (Handle.isReady hd h σ b).outcome = (Impl.isReady hd h (σ b.impl_)).outcome ∧
    (Handle.isReady hd h σ b).calls = (Impl.isReady hd h (σ b.impl_)).calls := by
  have hv1 : (Impl.wait hd h (σ a.impl_) t).outcome = Outcome.returned v := hv
  obtain ⟨hdone, hres⟩ := Impl.wait_returned hd h (σ a.impl_) t v hv1
  have hcore : (Handle.wait hd h σ a t).store b.impl_
      = (Impl.wait hd h (σ a.impl_) t).impl := by
    rw [← hab]
    exact Store.set_get σ a.impl_ _
  have hdone2 : ((Handle.wait hd h σ a t).store b.impl_)._done = true := by
    rw [hcore]; exact hdone
  have hres2 : ((Handle.wait hd h σ a t).store b.impl_)._result = v := by
    rw [hcore]; exact hres
  refine ⟨?_, ?_, rfl, Store.set_get σ a.impl_ _, rfl, rfl, rfl⟩
  · exact Handle.isReady_shared_done hd _ _ b hdone2
  · rw [Handle.wait_shared_done hd _ _ b 0 hdone2, hres2]

/-- Witness of C14: two handles on the core at address 0, which holds request
42; the handler resolves it to 7 during the wait through the first handle. -/
theorem shared_core_converges_witness :
    (Handle.wait (resolvingHandler 7) () (fun _ => (⟨42, 0, false, false⟩ : Impl Nat))
      ⟨0⟩ LB_TIMEOUT_INDEFINITE).outcome = Outcome.returned 7 ∧
    (Handle.isReady (resolvingHandler 7)
      (Handle.wait (resolvingHandler 7) () (fun _ => (⟨42, 0, false, false⟩ : Impl Nat))
        ⟨0⟩ LB_TIMEOUT_INDEFINITE).handler
      (Handle.wait (resolvingHandler 7) () (fun _ => (⟨42, 0, false, false⟩ : Impl Nat))
        ⟨0⟩ LB_TIMEOUT_INDEFINITE).store ⟨0⟩).outcome = Outcome.returned true ∧
    (Handle.wait (resolvingHandler 7)
      (Handle.wait (resolvingHandler 7) () (fun _ => (⟨42, 0, false, false⟩ : Impl Nat))
        ⟨0⟩ LB_TIMEOUT_INDEFINITE).handler
      (Handle.wait (resolvingHandler 7) () (fun _ => (⟨42, 0, false, false⟩ : Impl Nat))
        ⟨0⟩ LB_TIMEOUT_INDEFINITE).store ⟨0⟩ 0).outcome = Outcome.returned 7 :=
  ⟨rfl,
   congrArg SharedResult.outcome
     (shared_core_converges (resolvingHandler 7) ()
       (fun _ => (⟨42, 0, false, false⟩ : Impl Nat)) ⟨0⟩ ⟨0⟩ rfl
       LB_TIMEOUT_INDEFINITE 7 rfl).1,
   congrArg SharedResult.outcome
     (shared_core_converges (resolvingHandler 7) ()
       (fun _ => (⟨42, 0, false, false⟩ : Impl Nat)) ⟨0⟩ ⟨0⟩ rfl
       LB_TIMEOUT_INDEFINITE 7 rfl).2.1⟩

/-- C16: along every run of `wait`, `isReady` and `relinquish` calls, with any
timeouts and any handler, each recorded core is a possible later state of
every earlier one, the starting core included: done never goes back from
true to false, relinquished never goes back from true to false, and once done
is true the cached result stays the same.  This holds from every starting
core, in particular from a freshly constructed one. -/
theorem state_machine_monotone {H T : Type} [Zero T] (hd : RequestHandler H T)
    (ops : List Op) (h : H) (req : Nat) :
    List.Pairwise Impl.precedes
      ((Impl.new req : Impl T) ::
        (runOps hd ops h (Impl.new req)).map (fun r => r.impl)) ∧
    (Impl.new req : Impl T)._done = false ∧
    (Impl.new req : Impl T)._relinquished = false ∧
    ∀ s : Impl T,
      List.Pairwise Impl.precedes (s :: (runOps hd ops h s).map (fun r => r.impl)) :=
  ⟨runOps_pairwise_precedes hd ops h _, rfl, rfl,
   fun s => runOps_pairwise_precedes hd ops h s⟩

/-- C17: for every core, timeout and handler, the `void` specialisation of
`wait` makes the same handler calls, leaves the same core and handler, and
ends in the same way as the generic `wait`; only the returned payload is
dropped. -/
theorem waitVoid_matches_wait {H T : Type} (hd : RequestHandler H T) (h : H)
    (s : Impl T) (timeout : Nat) :
    Impl.waitVoid hd h s timeout
      = ⟨(Impl.wait hd h s timeout).outcome.map (fun _ => ()),
          (Impl.wait hd h s timeout).impl, (Impl.wait hd h s timeout).handler,
          (Impl.wait hd h s timeout).calls⟩ := by
  unfold Impl.waitVoid Impl.wait LBUNREACHABLE
  by_cases hd1 : s._done = true
  · simp [hd1, Outcome.map]
  · by_cases hr : s._relinquished = true
    · simp [hd1, hr, Outcome.map]
    · by_cases hok : (hd.waitRequest h s.request s._result timeout).ok = true <;>
        simp [hd1, hr, hok, Outcome.map]

/-- C18: construction with identifier `req` makes no handler call and yields
a core with that identifier, not done and not relinquished; `getID()`
returns `req` right after construction, on every core recorded along any run
of `wait`, `isReady` and `relinquish` calls, and at the end of the run. -/
theorem getID_immutable {H T : Type} [Zero T] (hd : RequestHandler H T)
    (ops : List Op) (h : H) (req : Nat) :
    (Request.new h req : Result H T Unit)
      = ⟨Outcome.returned (), ⟨req, 0, false, false⟩, h, []⟩ ∧
    Request.getID (Request.new h req : Result H T Unit).impl = req ∧
    (∀ r ∈ runOps hd ops h (Request.new h req : Result H T Unit).impl,
      Request.getID r.impl = req) ∧
    Request.getID (finalImpl (Request.new h req : Result H T Unit).impl
      (runOps hd ops h (Request.new h req : Result H T Unit).impl)) = req := by
  refine ⟨rfl, rfl, ?_, ?_⟩
  · intro r hr
    exact (runOps_precedes hd ops h _ r hr).2
  · exact finalImpl_request hd ops h _

/-- Witness of C18: request 42 on the slow handler; a wait that times out, a
wait that succeeds, `relinquish` and `isReady` all leave the identifier 42. -/
theorem getID_immutable_witness :
    (∀ r ∈ runOps slowHandler [Op.wait 5, Op.wait 6, Op.relinquish, Op.isReady] 1
        (Request.new 1 42 : Result Nat Nat Unit).impl, Request.getID r.impl = 42) ∧
    Request.getID (finalImpl (Request.new 1 42 : Result Nat Nat Unit).impl
      (runOps slowHandler [Op.wait 5, Op.wait 6, Op.relinquish, Op.isReady] 1
        (Request.new 1 42 : Result Nat Nat Unit).impl)) = 42 :=
  ⟨(getID_immutable slowHandler [Op.wait 5, Op.wait 6, Op.relinquish, Op.isReady]
      1 42).2.2.1,
   (getID_immutable slowHandler [Op.wait 5, Op.wait 6, Op.relinquish, Op.isReady]
      1 42).2.2.2⟩

/-- C19: `Future< void >::operator ==` performs no wait: on every core,
pending and relinquished ones included, it returns true, makes no handler
call and leaves the core and the handler as they were.  The generic
`operator ==` on the same core differs: pending and attached it calls
`waitRequest`, pending and relinquished it ends fatally. -/
theorem void_equality_no_wait {H T : Type} [DecidableEq T] (hd : RequestHandler H T)
    (h : H) (s : Impl T) (rhs : T) :
    Future.operatorEqVoid h s rhs = ⟨Outcome.returned true, s, h, []⟩ ∧
    (s._done = false → s._relinquished = false →
      (Future.operatorEq hd h s rhs).calls
        = [HandlerCall.waitRequest s.request LB_TIMEOUT_INDEFINITE]) ∧
    (s._done = false → s._relinquished = true →
      (Future.operatorEq hd h s rhs).outcome = Outcome.fatal) := by
  refine ⟨rfl, ?_, ?_⟩
  · intro hd1 hr
    simp only [Future.operatorEq, Future.wait, Impl.wait]
    by_cases hok : (hd.waitRequest h s.request s._result LB_TIMEOUT_INDEFINITE).ok = true <;>
      simp [hd1, hr, hok]
  · intro hd1 hr
    simp [Future.operatorEq, Future.wait, Impl.wait, LBUNREACHABLE, Outcome.map, hd1, hr]

/-- Witness of C19: a pending `void` future on request 5 compares equal
without the stalled handler being asked, and is still pending afterwards. -/
theorem void_equality_no_wait_witness :
    Future.operatorEqVoid 0 (⟨5, 0, false, false⟩ : Impl Nat) 0
      = ⟨Outcome.returned true, ⟨5, 0, false, false⟩, 0, []⟩ ∧
    (Future.operatorEq stalledHandler 0 (⟨5, 0, false, false⟩ : Impl Nat) 0).calls
      = [HandlerCall.waitRequest 5 LB_TIMEOUT_INDEFINITE] ∧
    (Future.operatorEq stalledHandler 0 (⟨5, 0, false, true⟩ : Impl Nat) 0).outcome
      = Outcome.fatal :=
  ⟨(void_equality_no_wait stalledHandler 0 ⟨5, 0, false, false⟩ 0).1,
   (void_equality_no_wait stalledHandler 0 ⟨5, 0, false, false⟩ 0).2.1 rfl rfl,
   (void_equality_no_wait stalledHandler 0 ⟨5, 0, false, true⟩ 0).2.2 rfl rfl⟩

end lunchbox
